import Mathlib

/-!
Verification development for the reactive custom-element base class
(`src/custom-element.ts` together with `src/decorators/property-declaration.ts`).

The TypeScript sources are shallowly embedded: JS runtime values become the
inductive `Value`, JS `Map`s become insertion-ordered association lists, the
instance state of a `CustomElement` becomes the structure `El`, and the
promise/microtask/requestAnimationFrame machinery used by the update scheduler
becomes an explicit, defunctionalised `World` with a microtask queue, a frame
queue and a promise table.  Methods become state-passing functions returning
`(Except Err α) × World`; the world returned alongside an `.error` is the state
at the moment the exception propagates (JS state survives a `throw`).
-/

set_option autoImplicit false

namespace CE

/-- JS runtime values, as far as the engine inspects them.  `nan` is kept as a
separate constructor because the default change detector treats `NaN`
specially under strict equality. -/
inductive Value where
  | undef
  | null
  | nan
  | bool (b : Bool)
  | num (n : Int)
  | str (s : String)
deriving DecidableEq, Repr

/-- JS `String(v)` on the values of `Value` (used by `setAttribute` coercion). -/
def valueToString : Value → String
  | .undef => "undefined"
  | .null => "null"
  | .nan => "NaN"
  | .bool true => "true"
  | .bool false => "false"
  | .num n => toString n
  | .str s => s

/-- JS strict equality `===` restricted to `Value`: structural equality except
that `NaN` is not equal to anything, itself included. -/
def strictEq (a b : Value) : Bool :=
  (a != Value.nan) && (a == b)

/-- DEFAULT_PROPERTY_CHANGE_DETECTOR from `property-declaration.ts`:
`oldValue !== newValue && (oldValue === oldValue || newValue === newValue)`. -/
def defaultChangeDetector (oldValue newValue : Value) : Bool :=
  !(strictEq oldValue newValue) && (strictEq oldValue oldValue || strictEq newValue newValue)

/-- The errors thrown by the engine: the four wrapped handler errors built by
ATTRIBUTE_REFLECTOR_ERROR / PROPERTY_REFLECTOR_ERROR / PROPERTY_NOTIFIER_ERROR /
CHANGE_DETECTOR_ERROR (carrying `String(handler)`), plus the TypeError a
non-null assertion failure would raise. -/
inductive Err where
  | attributeReflectorError (handler : String)
  | propertyReflectorError (handler : String)
  | propertyNotifierError (handler : String)
  | changeDetectorError (detector : String)
  | typeError
deriving DecidableEq, Repr

/-- Association-list lookup; the shallow embedding of `Map.get`. -/
def alget {κ α : Type} [BEq κ] (m : List (κ × α)) (k : κ) : Option α :=
  (m.find? (fun p => p.1 == k)).map Prod.snd

/-- The shallow embedding of `Map.has`. -/
def alhas {κ α : Type} [BEq κ] (m : List (κ × α)) (k : κ) : Bool :=
  (m.find? (fun p => p.1 == k)).isSome

/-- The shallow embedding of `Map.set`: update in place when the key is
present (JS maps keep the original insertion position), append otherwise. -/
def alset {κ α : Type} [BEq κ] (m : List (κ × α)) (k : κ) (v : α) : List (κ × α) :=
  if alhas m k then m.map (fun p => if p.1 == k then (k, v) else p)
  else m ++ [(k, v)]

/-- The shallow embedding of `Map.delete` / `removeAttribute` on the backing list. -/
def alremove {κ α : Type} [BEq κ] (m : List (κ × α)) (k : κ) : List (κ × α) :=
  m.filter (fun p => p.1 != k)

/-- Modelled from the spec: the kebab-case utility lives in
`src/decorators/utils/string-utils.ts`, which is not among the provided
sources; per spec §1 attribute-name case conversion is an out-of-scope
collaborator.  All keys used here are single lowercase words, for which the
conversion is the identity; we keep the lowercasing. -/
def kebabCase (s : String) : String := s.toLower

/-- createEventName from `property-declaration.ts`, restricted to string
property keys: optional kebab-cased prefix and suffix around the kebab-cased
key, joined with dashes. -/
def createEventName (propertyKey : String) (pre post : String) : String :=
  (if pre = "" then "" else kebabCase pre ++ "-")
    ++ kebabCase propertyKey
    ++ (if post = "" then "" else "-" ++ kebabCase post)

/-- The structural events of one update pass, recorded in order: the
`render()` call, each `reflectProperty` invocation, each `notifyProperty`
invocation, and the `updateCallback(changedProperties, firstUpdate)` hook. -/
inductive TraceEv where
  | render
  | reflect (propertyKey : String)
  | notify (propertyKey : String)
  | updateDone (changed : List (String × Value)) (first : Bool)
deriving DecidableEq, Repr

/-- A dispatched CustomEvent: its name and its `detail` payload. -/
structure EventRec where
  name : String
  detail : List (String × Value)
deriving DecidableEq, Repr

/-- The per-instance state of a `CustomElement`: property storage, DOM
attributes, the three dirty maps, the guard flags, and the id of the current
`_updateRequest` promise.  `trace` and `events` record the externally visible
activity of update passes. -/
structure El where
  props : List (String × Value) := []
  attrs : List (String × String) := []
  changedProperties : List (String × Value) := []
  reflectingProperties : List (String × Value) := []
  notifyingProperties : List (String × Value) := []
  isReflecting : Bool := false
  hasUpdated : Bool := false
  hasRequestedUpdate : Bool := false
  updateRequest : Nat := 0
  trace : List TraceEv := []
  events : List EventRec := []
deriving DecidableEq, Repr

/-- The defunctionalised suspended continuations of `_enqueueUpdate`:
`resume1 p` is the code after `await previousRequest` (it calls
`_scheduleUpdate` and awaits its promise), `resume2 p` is the code after
`await result` (it resolves the new `_updateRequest` promise `p` with
`!this._hasRequestedUpdate`). -/
inductive Task where
  | resume1 (pNew : Nat)
  | resume2 (pNew : Nat)
deriving DecidableEq, Repr

/-- A promise is pending (holding its registered continuations) or resolved
to a boolean. -/
inductive PromState where
  | pending (waiters : List Task)
  | resolved (value : Bool)
deriving DecidableEq, Repr

/-- The host world: the element instance, the promise table, the microtask
queue, the requestAnimationFrame queue (each entry is the `_scheduleUpdate`
promise the frame callback resolves), a counter of executed frame callbacks
and the uncaught exceptions that escaped a frame callback. -/
structure World where
  el : El
  promises : List (Nat × PromState)
  nextId : Nat
  micro : List Task
  raf : List Nat
  frames : Nat
  uncaught : List Err
deriving DecidableEq, Repr

/-- A custom attribute reflector / the body of a named instance method used
as one: receives `(attributeName, oldValue, newValue)` and the world, may
mutate the world, and may throw. -/
abbrev AttrHandlerFn : Type :=
  String → Option String → Option String → World → (Except Unit Unit) × World

/-- A custom property reflector or notifier: receives
`(propertyKey, oldValue, newValue)` and the world. -/
abbrev PropHandlerFn : Type :=
  String → Value → Value → World → (Except Unit Unit) × World

/-- The polymorphic handler options of a `PropertyDeclaration`:
`false`, `true` (use the default), a property key naming an instance method,
or a function (tagged with the text `String(fn)` would yield). -/
inductive HandlerOpt (F : Type) where
  | off
  | on
  | method (k : String)
  | fn (name : String) (f : F)

/-- The `observe` option: `false`, `true` (not a function, so `hasChanged`
ignores it), or a change-detector function. -/
inductive ObserveOpt where
  | off
  | on
  | fn (name : String) (f : Value → Value → Except Unit Bool)

/-- The converter of a `PropertyDeclaration`. -/
structure AttributeConverter where
  toAttribute : Value → Value
  fromAttribute : Option String → Value

/-- PropertyDeclaration from `property-declaration.ts`.  The `attribute`
option is `false` or an attribute name (`true` is normalised to the derived
name when the decorator registers the property). -/
structure PropertyDeclaration where
  «attribute» : Option String
  converter : AttributeConverter
  reflectAttribute : HandlerOpt AttrHandlerFn
  reflectProperty : HandlerOpt PropHandlerFn
  notify : HandlerOpt PropHandlerFn
  observe : ObserveOpt

/-- The static side of a custom-element class: the
`attributes : Map<string, PropertyKey>` and
`properties : Map<PropertyKey, PropertyDeclaration>` registries, plus the
instance methods that handler options may name. -/
structure Cls where
  attributes : List (String × String)
  properties : List (String × PropertyDeclaration)
  attrMethods : List (String × AttrHandlerFn)
  propMethods : List (String × PropHandlerFn)

/-- `_getPropertyDeclaration`. -/
def getPropertyDeclaration (cls : Cls) (propertyKey : String) : Option PropertyDeclaration :=
  alget cls.properties propertyKey

/-- Modelled from the spec: the decorator contributes every registered
attribute name to the static `observedAttributes` list (spec §4.1), so an
attribute is observed exactly when it appears in the `attributes` registry. -/
def observedAttr (cls : Cls) (name : String) : Bool :=
  alhas cls.attributes name

/-- `hasChanged`: resolves the declaration's `observe` option; only an actual
function is a change detector (`isPropertyChangeDetector` is a `typeof
function` test, so `observe: true` also yields `false` here); a throwing
detector is wrapped into CHANGE_DETECTOR_ERROR. -/
def hasChanged (cls : Cls) (propertyKey : String) (oldValue newValue : Value) : Except Err Bool :=
  match getPropertyDeclaration cls propertyKey with
  | some d =>
    match d.observe with
    | .fn name f =>
      match f oldValue newValue with
      | .ok b => .ok b
      | .error _ => .error (.changeDetectorError name)
    | _ => .ok false
  | none => .ok false

/-- Resolve a promise: mark it resolved and move its waiters to the microtask
queue.  Resolving a settled promise is a no-op, as in JS. -/
def resolveProm (w : World) (p : Nat) (v : Bool) : World :=
  match alget w.promises p with
  | some (.pending ws) =>
    { w with promises := alset w.promises p (.resolved v), micro := w.micro ++ ws }
  | _ => w

/-- `await p` with continuation `t`: run the continuation in a later
microtask if `p` is already resolved, otherwise register it as a waiter. -/
def awaitOn (w : World) (p : Nat) (t : Task) : World :=
  match alget w.promises p with
  | some (.pending ws) => { w with promises := alset w.promises p (.pending (ws ++ [t])) }
  | some (.resolved _) => { w with micro := w.micro ++ [t] }
  | none => w

/-- The synchronous prefix of the async `_enqueueUpdate`: capture the previous
`_updateRequest`, set `_hasRequestedUpdate`, install a fresh pending promise
as the new `_updateRequest`, and suspend on the previous request. -/
def enqueueUpdate (w : World) : World :=
  let previousRequest := w.el.updateRequest
  let pNew := w.nextId
  let w1 : World :=
    { w with
      el := { w.el with hasRequestedUpdate := true, updateRequest := pNew },
      promises := w.promises ++ [(pNew, PromState.pending [])],
      nextId := w.nextId + 1 }
  awaitOn w1 previousRequest (.resume1 pNew)

/-- `requestUpdate(propertyKey?, oldValue?, newValue?)`.  A falsy key (absent,
or the empty string under JS truthiness) skips the change handling; a truthy
key is checked with `hasChanged` (a negative check returns the current
`_updateRequest` immediately), recorded in `changedProperties`, and — unless
the element is in reflecting state — in `reflectingProperties`.  An update is
enqueued only when `_hasRequestedUpdate` is still false, and the current
`_updateRequest` promise id is returned. -/
def requestUpdate (cls : Cls) (propertyKey : Option String) (oldValue newValue : Value)
    (w : World) : (Except Err Nat) × World :=
  match propertyKey with
  | some k =>
    if k = "" then
      let w2 := if !w.el.hasRequestedUpdate then enqueueUpdate w else w
      (.ok w2.el.updateRequest, w2)
    else
      match hasChanged cls k oldValue newValue with
      | .error e => (.error e, w)
      | .ok false => (.ok w.el.updateRequest, w)
      | .ok true =>
        let el1 := { w.el with changedProperties := alset w.el.changedProperties k oldValue }
        let el2 :=
          if !el1.isReflecting then
            { el1 with reflectingProperties := alset el1.reflectingProperties k oldValue }
          else el1
        let w1 : World := { w with el := el2 }
        let w2 := if !w1.el.hasRequestedUpdate then enqueueUpdate w1 else w1
        (.ok w2.el.updateRequest, w2)
  | none =>
    let w2 := if !w.el.hasRequestedUpdate then enqueueUpdate w else w
    (.ok w2.el.updateRequest, w2)

/-- Modelled from the spec: the accessor interceptor (§4.3).  The `property`
decorator that installs the get/set pair is not among the provided sources;
per the spec the setter captures the old value, stores the new one, then
calls `requestUpdate(key, old, v)`.  Assigning to an undeclared key is a
plain store. -/
def setProperty (cls : Cls) (propertyKey : String) (v : Value) (w : World) :
    (Except Err Nat) × World :=
  match getPropertyDeclaration cls propertyKey with
  | some _ =>
    let oldValue := (alget w.el.props propertyKey).getD Value.undef
    let w1 : World := { w with el := { w.el with props := alset w.el.props propertyKey v } }
    requestUpdate cls (some propertyKey) oldValue v w1
  | none =>
    (.ok w.el.updateRequest, { w with el := { w.el with props := alset w.el.props propertyKey v } })

/-- `_reflectAttribute`, the default attribute reflector: look up the owning
property (non-null asserted in the source, hence `typeError` when absent),
convert the new attribute value with the declaration's converter and assign
it to the property, re-entering the accessor interceptor. -/
def defaultReflectAttribute (cls : Cls) (attributeName : String)
    (oldValue newValue : Option String) (w : World) : (Except Err Unit) × World :=
  match alget cls.attributes attributeName with
  | none => (.error .typeError, w)
  | some propertyKey =>
    match getPropertyDeclaration cls propertyKey with
    | none => (.error .typeError, w)
    | some d =>
      let propertyValue := d.converter.fromAttribute newValue
      match setProperty cls propertyKey propertyValue w with
      | (.error e, w1) => (.error e, w1)
      | (.ok _, w1) => ((.ok ()), w1)

/-- `reflectAttribute`: attribute-to-property reflection.  An attribute with
no owning property is logged and ignored.  If the `reflectAttribute` option is
truthy, `_isReflecting` is set, the handler is resolved (custom function,
named instance method, or the default) and invoked, and `_isReflecting` is
cleared after a successful invocation; a wrapped ATTRIBUTE_REFLECTOR_ERROR is
thrown out of the dispatch (the source has no `finally`, so the flag is not
touched on the throwing paths). -/
def reflectAttribute (cls : Cls) (attributeName : String)
    (oldValue newValue : Option String) (w : World) : (Except Err Unit) × World :=
  match alget cls.attributes attributeName with
  | none => ((.ok ()), w)
  | some propertyKey =>
    match getPropertyDeclaration cls propertyKey with
    | none => (.error .typeError, w)
    | some d =>
      match d.reflectAttribute with
      | .off => ((.ok ()), w)
      | .fn name f =>
        let w1 : World := { w with el := { w.el with isReflecting := true } }
        match f attributeName oldValue newValue w1 with
        | (.error _, w2) => (.error (.attributeReflectorError name), w2)
        | (.ok _, w2) => ((.ok ()), { w2 with el := { w2.el with isReflecting := false } })
      | .method k =>
        let w1 : World := { w with el := { w.el with isReflecting := true } }
        match alget cls.attrMethods k with
        | none => (.error (.attributeReflectorError k), w1)
        | some f =>
          match f attributeName oldValue newValue w1 with
          | (.error _, w2) => (.error (.attributeReflectorError k), w2)
          | (.ok _, w2) => ((.ok ()), { w2 with el := { w2.el with isReflecting := false } })
      | .on =>
        let w1 : World := { w with el := { w.el with isReflecting := true } }
        match defaultReflectAttribute cls attributeName oldValue newValue w1 with
        | (.error e, w2) => (.error e, w2)
        | (.ok _, w2) => ((.ok ()), { w2 with el := { w2.el with isReflecting := false } })

/-- `attributeChangedCallback`: ignore the change while a reflection is in
progress, otherwise reflect when the value actually changed. -/
def attributeChangedCallback (cls : Cls) («attribute» : String)
    (oldValue newValue : Option String) (w : World) : (Except Err Unit) × World :=
  if w.el.isReflecting then ((.ok ()), w)
  else if oldValue = newValue then ((.ok ()), w)
  else reflectAttribute cls «attribute» oldValue newValue w

/-- The host DOM's `setAttribute`: store the attribute and synchronously run
the custom-element reaction for observed attributes (the source relies on
this synchronicity: "attributeChangedCallback is called synchronously, we can
catch the state there"). -/
def setAttribute (cls : Cls) (name value : String) (w : World) : (Except Err Unit) × World :=
  let oldValue := alget w.el.attrs name
  let w1 : World := { w with el := { w.el with attrs := alset w.el.attrs name value } }
  if observedAttr cls name then attributeChangedCallback cls name oldValue (some value) w1
  else ((.ok ()), w1)

/-- The host DOM's `removeAttribute`: removing an absent attribute is a
no-op; removing a present observed attribute runs the reaction with a `null`
new value. -/
def removeAttribute (cls : Cls) (name : String) (w : World) : (Except Err Unit) × World :=
  match alget w.el.attrs name with
  | none => ((.ok ()), w)
  | some oldValue =>
    let w1 : World := { w with el := { w.el with attrs := alremove w.el.attrs name } }
    if observedAttr cls name then attributeChangedCallback cls name (some oldValue) none w1
    else ((.ok ()), w1)

/-- `_reflectProperty`, the default property reflector: no-op when the
declaration's `attribute` option is falsy; otherwise `toAttribute(newValue)`
decides — `undefined` leaves the attribute alone, `null` removes it, anything
else is set (coerced to a string by `setAttribute`). -/
def defaultReflectProperty (cls : Cls) (propertyKey : String)
    (oldValue newValue : Value) (w : World) : (Except Err Unit) × World :=
  match getPropertyDeclaration cls propertyKey with
  | none => (.error .typeError, w)
  | some d =>
    match d.«attribute» with
    | none => ((.ok ()), w)
    | some attributeName =>
      match d.converter.toAttribute newValue with
      | .undef => ((.ok ()), w)
      | .null => removeAttribute cls attributeName w
      | av => setAttribute cls attributeName (valueToString av) w

/-- `reflectProperty`: property-to-attribute reflection, symmetric to
`reflectAttribute` (same guard discipline, PROPERTY_REFLECTOR_ERROR
wrapping, and no `finally` on the throwing paths). -/
def reflectProperty (cls : Cls) (propertyKey : String)
    (oldValue newValue : Value) (w : World) : (Except Err Unit) × World :=
  match getPropertyDeclaration cls propertyKey with
  | none => ((.ok ()), w)
  | some d =>
    match d.reflectProperty with
    | .off => ((.ok ()), w)
    | .fn name f =>
      let w1 : World := { w with el := { w.el with isReflecting := true } }
      match f propertyKey oldValue newValue w1 with
      | (.error _, w2) => (.error (.propertyReflectorError name), w2)
      | (.ok _, w2) => ((.ok ()), { w2 with el := { w2.el with isReflecting := false } })
    | .method k =>
      let w1 : World := { w with el := { w.el with isReflecting := true } }
      match alget cls.propMethods k with
      | none => (.error (.propertyReflectorError k), w1)
      | some f =>
        match f propertyKey oldValue newValue w1 with
        | (.error _, w2) => (.error (.propertyReflectorError k), w2)
        | (.ok _, w2) => ((.ok ()), { w2 with el := { w2.el with isReflecting := false } })
    | .on =>
      let w1 : World := { w with el := { w.el with isReflecting := true } }
      match defaultReflectProperty cls propertyKey oldValue newValue w1 with
      | (.error e, w2) => (.error e, w2)
      | (.ok _, w2) => ((.ok ()), { w2 with el := { w2.el with isReflecting := false } })

/-- `_notifyProperty`, the default property notifier: dispatch a composed
`<property>-changed` CustomEvent carrying `{property, previous, current}`. -/
def defaultNotifyProperty (propertyKey : String) (oldValue newValue : Value) (w : World) : World :=
  { w with el := { w.el with events := w.el.events ++
      [{ name := createEventName propertyKey "" "changed",
         detail := [("property", Value.str propertyKey),
                    ("previous", oldValue),
                    ("current", newValue)] }] } }

/-- `notifyProperty`: resolve and invoke the notifier for a property (custom
function, named instance method, or the default), wrapping handler errors
into PROPERTY_NOTIFIER_ERROR. -/
def notifyProperty (cls : Cls) (propertyKey : String)
    (oldValue newValue : Value) (w : World) : (Except Err Unit) × World :=
  match getPropertyDeclaration cls propertyKey with
  | none => ((.ok ()), w)
  | some d =>
    match d.notify with
    | .off => ((.ok ()), w)
    | .fn name f =>
      match f propertyKey oldValue newValue w with
      | (.error _, w1) => (.error (.propertyNotifierError name), w1)
      | (.ok _, w1) => ((.ok ()), w1)
    | .method k =>
      match alget cls.propMethods k with
      | none => (.error (.propertyNotifierError k), w)
      | some f =>
        match f propertyKey oldValue newValue w with
        | (.error _, w1) => (.error (.propertyNotifierError k), w1)
        | (.ok _, w1) => ((.ok ()), w1)
    | .on => ((.ok ()), defaultNotifyProperty propertyKey oldValue newValue w)

/-- `render`: delegates to the user template and the external lit-html
renderer (an opaque collaborator per spec §1); the call itself is recorded in
the pass trace. -/
def render (w : World) : World :=
  { w with el := { w.el with trace := w.el.trace ++ [TraceEv.render] } }

/-- The default `updateCallback`: `_notifyLifecycle('update', {firstUpdate})`
dispatches an `on-update` lifecycle event. -/
def updateCallback (firstUpdate : Bool) (w : World) : World :=
  { w with el := { w.el with events := w.el.events ++
      [{ name := createEventName "update" "on" "",
         detail := [("firstUpdate", Value.bool firstUpdate)] }] } }

/-- The `forEach` over `reflectingProperties` in `update`: for each recorded
entry invoke `reflectProperty(key, oldValue, this[key])`; a thrown error
aborts the remaining iterations. -/
def reflectRun (cls : Cls) : List (String × Value) → World → (Except Err Unit) × World
  | [], w => ((.ok ()), w)
  | (propertyKey, oldValue) :: rest, w =>
    let w1 : World := { w with el := { w.el with trace := w.el.trace ++ [TraceEv.reflect propertyKey] } }
    match reflectProperty cls propertyKey oldValue
        ((alget w1.el.props propertyKey).getD Value.undef) w1 with
    | (.error e, w2) => (.error e, w2)
    | (.ok _, w2) => reflectRun cls rest w2

/-- The `forEach` over `notifyingProperties` in `update`. -/
def notifyRun (cls : Cls) : List (String × Value) → World → (Except Err Unit) × World
  | [], w => ((.ok ()), w)
  | (propertyKey, oldValue) :: rest, w =>
    let w1 : World := { w with el := { w.el with trace := w.el.trace ++ [TraceEv.notify propertyKey] } }
    match notifyProperty cls propertyKey oldValue
        ((alget w1.el.props propertyKey).getD Value.undef) w1 with
    | (.error e, w2) => (.error e, w2)
    | (.ok _, w2) => notifyRun cls rest w2

/-- `update`: render, reflect every property marked for reflection, notify
every property marked for notification, invoke
`updateCallback(changedProperties, !hasUpdated)`, then set `_hasUpdated`. -/
def update (cls : Cls) (w : World) : (Except Err Unit) × World :=
  let w1 := render w
  match reflectRun cls w1.el.reflectingProperties w1 with
  | (.error e, w2) => (.error e, w2)
  | (.ok _, w2) =>
    match notifyRun cls w2.el.notifyingProperties w2 with
    | (.error e, w3) => (.error e, w3)
    | (.ok _, w3) =>
      let first := !w3.el.hasUpdated
      let w4 : World := { w3 with el := { w3.el with
        trace := w3.el.trace ++ [TraceEv.updateDone w3.el.changedProperties first] } }
      let w5 := updateCallback first w4
      ((.ok ()), { w5 with el := { w5.el with hasUpdated := true } })

/-- The requestAnimationFrame callback registered by `_scheduleUpdate`: run
`update()`, replace the three dirty maps with fresh ones, clear
`_hasRequestedUpdate` and resolve the `_scheduleUpdate` promise.  An
exception thrown by `update()` escapes the callback (reported to the host),
skipping the cleanup and leaving the promise pending. -/
def runFrame (cls : Cls) (pSched : Nat) (w : World) : World :=
  let w0 : World := { w with frames := w.frames + 1 }
  match update cls w0 with
  | (.error e, w1) => { w1 with uncaught := w1.uncaught ++ [e] }
  | (.ok _, w1) =>
    let el1 := { w1.el with
      changedProperties := ([] : List (String × Value)),
      reflectingProperties := ([] : List (String × Value)),
      notifyingProperties := ([] : List (String × Value)),
      hasRequestedUpdate := false }
    resolveProm { w1 with el := el1 } pSched true

/-- `_scheduleUpdate`: create the promise the frame callback will resolve and
register the callback with the host's requestAnimationFrame queue. -/
def scheduleUpdate (w : World) : Nat × World :=
  let pSched := w.nextId
  (pSched,
    { w with
      nextId := w.nextId + 1,
      promises := w.promises ++ [(pSched, PromState.pending [])],
      raf := w.raf ++ [pSched] })

/-- Run one suspended continuation of `_enqueueUpdate`:  `resume1` performs
`const result = this._scheduleUpdate()` and suspends on `result`; `resume2`
performs `resolve(!this._hasRequestedUpdate)` on the `_updateRequest` promise
created by its enqueue. -/
def runTask (cls : Cls) (t : Task) (w : World) : World :=
  match t with
  | .resume1 pNew =>
    let (pSched, w1) := scheduleUpdate w
    awaitOn w1 pSched (.resume2 pNew)
  | .resume2 pNew =>
    resolveProm w pNew (!w.el.hasRequestedUpdate)

/-- Drain the microtask queue (fuel-bounded; tasks may enqueue tasks). -/
def drainMicro (cls : Cls) : Nat → World → World
  | 0, w => w
  | fuel + 1, w =>
    match w.micro with
    | [] => w
    | t :: rest => drainMicro cls fuel (runTask cls t { w with micro := rest })

/-- Run the host loop to quiescence (fuel-bounded): drain microtasks, then
run the next animation frame, and repeat. -/
def runAll (cls : Cls) : Nat → World → World
  | 0, w => w
  | fuel + 1, w =>
    let w1 := drainMicro cls (fuel + 1) w
    match w1.raf with
    | [] => w1
    | p :: rest => runAll cls fuel (runFrame cls p { w1 with raf := rest })

/-- The diff loop at the end of `watch`: every entry of `changedProperties`
that is new with respect to the executor's pre-state, or whose recorded old
value changed per `hasChanged`, is added to `notifyingProperties`. -/
def watchDiff (cls : Cls) (previousChanges : List (String × Value)) :
    List (String × Value) → World → (Except Err Unit) × World
  | [], w => ((.ok ()), w)
  | (propertyKey, oldValue) :: rest, w =>
    let mark : Except Err Bool :=
      if alhas previousChanges propertyKey then
        hasChanged cls propertyKey ((alget previousChanges propertyKey).getD Value.undef) oldValue
      else .ok true
    match mark with
    | .error e => (.error e, w)
    | .ok true =>
      watchDiff cls previousChanges rest
        { w with el := { w.el with
            notifyingProperties := alset w.el.notifyingProperties propertyKey oldValue } }
    | .ok false => watchDiff cls previousChanges rest w

/-- `watch(executor)`: back up `changedProperties`, run the executor, then
mark the new-or-further-changed properties as notifying. -/
def watch (cls : Cls) (executor : World → (Except Err Unit) × World) (w : World) :
    (Except Err Unit) × World :=
  let previousChanges := w.el.changedProperties
  match executor w with
  | (.error e, w1) => (.error e, w1)
  | (.ok _, w1) => watchDiff cls previousChanges w1.el.changedProperties w1

/-- A freshly constructed world around an element: the initial
`_updateRequest` is `Promise.resolve(true)` and no update is pending. -/
def mkWorld (el : El) : World :=
  { el := { el with updateRequest := 0, hasRequestedUpdate := false },
    promises := [(0, PromState.resolved true)],
    nextId := 1,
    micro := [],
    raf := [],
    frames := 0,
    uncaught := [] }

/-- One synchronous `requestUpdate` call, for describing call sequences. -/
structure Req where
  key : Option String
  oldValue : Value
  newValue : Value

/-- A synchronous turn: a sequence of `requestUpdate` calls with no event-loop
step in between (a thrown detector error surfaces to that call's caller and
the turn continues). -/
def applyReqs (cls : Cls) (reqs : List Req) (w : World) : World :=
  reqs.foldl (fun wa r => (requestUpdate cls r.key r.oldValue r.newValue wa).2) w

/-- Handler options that are plain configuration: `false` or `true` (no
custom function and no named instance method). -/
def HandlerOpt.isSimple {F : Type} : HandlerOpt F → Bool
  | .off => true
  | .on => true
  | _ => false

/-- A declaration whose three handlers are all plain (default or disabled). -/
def plainDecl (d : PropertyDeclaration) : Bool :=
  d.reflectAttribute.isSimple && d.reflectProperty.isSimple && d.notify.isSimple

/-- A class all of whose declarations are plain. -/
def plainCls (cls : Cls) : Bool :=
  cls.properties.all (fun p => plainDecl p.2)

/-- A concrete converter: stringify on the way out, keep the raw string (or
`null` for a removed attribute) on the way in. -/
def convStr : AttributeConverter :=
  { toAttribute := fun v => Value.str (valueToString v),
    fromAttribute := fun s => match s with | some t => Value.str t | none => Value.null }

/-- The `observe` option carrying the default change detector, as installed
by DEFAULT_PROPERTY_DECLARATION. -/
def defObserve : ObserveOpt :=
  .fn "defaultChangeDetector" (fun x y => .ok (defaultChangeDetector x y))

/-- A declaration with all options at their defaults (everything `true`, the
default change detector) and the given attribute name. -/
def defaultDeclaration (a : Option String) : PropertyDeclaration :=
  { «attribute» := a, converter := convStr, reflectAttribute := .on,
    reflectProperty := .on, notify := .off, observe := defObserve }

/-- A class with one declared number-like property `count`. -/
def clsCount : Cls :=
  { attributes := [("count", "count")],
    properties := [("count", defaultDeclaration (some "count"))],
    attrMethods := [], propMethods := [] }

/-- An element of `clsCount` with `count = 0`. -/
def elCount : El := { props := [("count", Value.num 0)] }

/-- A declaration whose custom attribute reflector always throws. -/
def declBoom : PropertyDeclaration :=
  { «attribute» := some "foo", converter := convStr,
    reflectAttribute := .fn "boom" (fun _ _ _ w => (.error (), w)),
    reflectProperty := .on, notify := .off, observe := defObserve }

/-- A class with a throwing attribute reflector on `foo` and a default
declaration on the unrelated property `bar`. -/
def clsBoom : Cls :=
  { attributes := [("foo", "foo"), ("bar", "bar")],
    properties := [("foo", declBoom), ("bar", defaultDeclaration (some "bar"))],
    attrMethods := [], propMethods := [] }

/-- An element of `clsBoom`. -/
def elBoom : El := { props := [("foo", Value.null), ("bar", Value.num 0)] }

/-- A fully default declaration with notification enabled, for the
`checked` scenarios. -/
def declChecked : PropertyDeclaration :=
  { «attribute» := some "checked", converter := convStr, reflectAttribute := .on,
    reflectProperty := .on, notify := .on, observe := defObserve }

/-- A class with one boolean-like property `checked` (notify enabled). -/
def clsChecked : Cls :=
  { attributes := [("checked", "checked")],
    properties := [("checked", declChecked)],
    attrMethods := [], propMethods := [] }

/-- An element of `clsChecked` with `checked = false`. -/
def elChecked : El := { props := [("checked", Value.bool false)] }

/-- The executor `() => { this.checked = true; this.checked = true; }`. -/
def exDouble (w : World) : (Except Err Unit) × World :=
  match setProperty clsChecked "checked" (Value.bool true) w with
  | (.error e, w1) => (.error e, w1)
  | (.ok _, w1) =>
    match setProperty clsChecked "checked" (Value.bool true) w1 with
    | (.error e, w2) => (.error e, w2)
    | (.ok _, w2) => ((.ok ()), w2)

/-- The executor `() => { this.checked = true; this.checked = false; }`:
its net effect leaves the property value unchanged. -/
def exToggle (w : World) : (Except Err Unit) × World :=
  match setProperty clsChecked "checked" (Value.bool true) w with
  | (.error e, w1) => (.error e, w1)
  | (.ok _, w1) =>
    match setProperty clsChecked "checked" (Value.bool false) w1 with
    | (.error e, w2) => (.error e, w2)
    | (.ok _, w2) => ((.ok ()), w2)

/-- The executor `() => { this.checked = false; }` re-assigning the current
value: the change detector rejects the write. -/
def exNoop (w : World) : (Except Err Unit) × World :=
  match setProperty clsChecked "checked" (Value.bool false) w with
  | (.error e, w1) => (.error e, w1)
  | (.ok _, w1) => ((.ok ()), w1)

/-- A class with no declared properties at all. -/
def clsEmpty : Cls :=
  { attributes := [], properties := [], attrMethods := [], propMethods := [] }

/-- A declaration whose configured change detector always reports "no
difference". -/
def declNever : PropertyDeclaration :=
  { «attribute» := none, converter := convStr, reflectAttribute := .off,
    reflectProperty := .off, notify := .off,
    observe := .fn "never" (fun _ _ => .ok false) }

/-- A class that registers `declNever` under the empty-string property key
(the registries are plain maps, so any string key is registrable). -/
def clsFalsyKey : Cls :=
  { attributes := [], properties := [("", declNever)], attrMethods := [], propMethods := [] }

/-- A converter whose `toAttribute` always yields `null`, and one that always
yields `undefined`, for exercising the default property reflector. -/
def convNull : AttributeConverter :=
  { toAttribute := fun _ => Value.null, fromAttribute := fun _ => Value.null }

/-- See `convNull`. -/
def convUndef : AttributeConverter :=
  { toAttribute := fun _ => Value.undef, fromAttribute := fun _ => Value.undef }

/-- A class exercising the four branches of the default property reflector:
`pa` reflects a string, `pb` always converts to `null`, `pc` always converts
to `undefined`, `pd` has no associated attribute. -/
def clsReflect : Cls :=
  { attributes := [("a", "pa"), ("b", "pb"), ("c", "pc")],
    properties :=
      [("pa", defaultDeclaration (some "a")),
       ("pb", { defaultDeclaration (some "b") with converter := convNull }),
       ("pc", { defaultDeclaration (some "c") with converter := convUndef }),
       ("pd", defaultDeclaration none)],
    attrMethods := [], propMethods := [] }

/-- An element that already carries attribute `b` and sits inside a
reflection (the guard is held), used to witness the default reflector's
branches. -/
def elReflect : El :=
  { props := [("pa", Value.num 1), ("pb", Value.num 1), ("pc", Value.num 1), ("pd", Value.num 1)],
    attrs := [("b", "old")],
    isReflecting := true }

/-- The world around `elReflect`. -/
def wReflect : World := mkWorld elReflect

/-- An element with no state at all. -/
def elBlank : El := {}

/-- An element with all three dirty maps populated for `checked`, for
exercising a full update pass. -/
def elDirty : El :=
  { props := [("checked", Value.bool true)],
    changedProperties := [("checked", Value.bool false)],
    reflectingProperties := [("checked", Value.bool false)],
    notifyingProperties := [("checked", Value.bool false)] }

/-- An idle world over `elCount` whose element already has an update pending,
for exercising coalescing. -/
def wPending : World :=
  { mkWorld elCount with el := { (mkWorld elCount).el with hasRequestedUpdate := true } }

/-- The scheduler-visible state of a freshly constructed, idle world: the
resolved initial `_updateRequest`, nothing queued, no frames run. -/
def SchedIdle (w : World) : Prop :=
  w.promises = [(0, PromState.resolved true)] ∧ w.nextId = 1 ∧ w.micro = [] ∧
  w.raf = [] ∧ w.frames = 0 ∧ w.el.updateRequest = 0 ∧ w.el.hasRequestedUpdate = false

/-- The scheduler-visible state after exactly one enqueue from idle: one new
pending `_updateRequest` promise and the single resumption task of the one
coalesced pass. -/
def SchedOnePending (w : World) : Prop :=
  w.promises = [(0, PromState.resolved true), (1, PromState.pending [])] ∧ w.nextId = 2 ∧
  w.micro = [Task.resume1 1] ∧ w.raf = [] ∧ w.frames = 0 ∧
  w.el.updateRequest = 1 ∧ w.el.hasRequestedUpdate = true

/-- The world fields a successful pass body leaves untouched: the whole
scheduler state and every element field except `attrs`, `isReflecting`,
`trace` and `events`. -/
def PassFrame (w w' : World) : Prop :=
  w'.promises = w.promises ∧ w'.nextId = w.nextId ∧ w'.micro = w.micro ∧
  w'.raf = w.raf ∧ w'.frames = w.frames ∧ w'.uncaught = w.uncaught ∧
  w'.el.props = w.el.props ∧
  w'.el.changedProperties = w.el.changedProperties ∧
  w'.el.reflectingProperties = w.el.reflectingProperties ∧
  w'.el.notifyingProperties = w.el.notifyingProperties ∧
  w'.el.hasUpdated = w.el.hasUpdated ∧
  w'.el.hasRequestedUpdate = w.el.hasRequestedUpdate ∧
  w'.el.updateRequest = w.el.updateRequest

instance {ε α : Type} [DecidableEq ε] [DecidableEq α] : DecidableEq (Except ε α) := fun a b =>
  match a, b with
  | .ok x, .ok y => if h : x = y then isTrue (by rw [h]) else isFalse (by simp [h])
  | .error x, .error y => if h : x = y then isTrue (by rw [h]) else isFalse (by simp [h])
  | .ok _, .error _ => isFalse (by simp)
  | .error _, .ok _ => isFalse (by simp)

theorem alget_cons_of_ne {κ α : Type} [BEq κ] (p : κ × α) (t : List (κ × α)) (k : κ)
    (hpf : (p.1 == k) = false) : alget (p :: t) k = alget t k := by
  unfold alget
  rw [List.find?_cons_of_neg t (by simp [hpf])]

theorem alhas_cons_of_ne {κ α : Type} [BEq κ] (p : κ × α) (t : List (κ × α)) (k : κ)
    (hpf : (p.1 == k) = false) : alhas (p :: t) k = alhas t k := by
  unfold alhas
  rw [List.find?_cons_of_neg t (by simp [hpf])]

theorem alset_cons_of_ne {κ α : Type} [BEq κ] (p : κ × α) (t : List (κ × α)) (k : κ) (v : α)
    (hpf : (p.1 == k) = false) : alset (p :: t) k v = p :: alset t k v := by
  unfold alset
  rw [alhas_cons_of_ne p t k hpf]
  by_cases ht : alhas t k = true
  · simp [ht, hpf]
  · have htf : alhas t k = false := by simpa using ht
    simp [htf, hpf]

theorem alget_alset_self {κ α : Type} [BEq κ] [LawfulBEq κ] (m : List (κ × α)) (k : κ) (v : α) :
    alget (alset m k v) k = some v := by
  induction m with
  | nil => simp [alset, alhas, alget, List.find?]
  | cons p t ih =>
    by_cases hp : (p.1 == k) = true
    · simp [alset, alhas, alget, List.find?, hp]
    · have hpf : (p.1 == k) = false := by simpa using hp
      rw [alset_cons_of_ne p t k v hpf, alget_cons_of_ne p (alset t k v) k hpf]
      exact ih

theorem alremove_of_absent {κ α : Type} [BEq κ] (m : List (κ × α)) (k : κ)
    (h : alget m k = none) : alremove m k = m := by
  unfold alget at h
  unfold alremove
  rw [List.filter_eq_self]
  intro a ha
  have hn : m.find? (fun p => p.1 == k) = none := by
    cases hf : m.find? (fun p => p.1 == k) with
    | none => rfl
    | some p => rw [hf] at h; simp at h
  have hf := List.find?_eq_none.mp hn a ha
  have hb : (a.1 == k) = false := by simpa using hf
  simp [bne, hb]

/-- The key guard fact: while a reflection is in progress, the attribute
changed callback returns immediately, leaving the world untouched. -/
theorem acc_guard (cls : Cls) (a : String) (o n : Option String) (w : World)
    (h : w.el.isReflecting = true) :
    attributeChangedCallback cls a o n w = ((.ok ()), w) := by
  unfold attributeChangedCallback
  simp [h]

/-- Under the reflecting guard, `setAttribute` only stores the attribute. -/
theorem setAttribute_guard (cls : Cls) (name v : String) (w : World)
    (h : w.el.isReflecting = true) :
    setAttribute cls name v w
      = ((.ok ()), { w with el := { w.el with attrs := alset w.el.attrs name v } }) := by
  unfold setAttribute
  by_cases ho : observedAttr cls name = true
  · simp only [ho, if_true]
    exact acc_guard _ _ _ _ _ (by simpa using h)
  · simp [ho]

theorem passFrame_refl (w : World) : PassFrame w w :=
  ⟨rfl, rfl, rfl, rfl, rfl, rfl, rfl, rfl, rfl, rfl, rfl, rfl, rfl⟩

theorem passFrame_trans {w1 w2 w3 : World} (h1 : PassFrame w1 w2) (h2 : PassFrame w2 w3) :
    PassFrame w1 w3 := by
  obtain ⟨a1, a2, a3, a4, a5, a6, a7, a8, a9, a10, a11, a12, a13⟩ := h1
  obtain ⟨b1, b2, b3, b4, b5, b6, b7, b8, b9, b10, b11, b12, b13⟩ := h2
  exact ⟨b1.trans a1, b2.trans a2, b3.trans a3, b4.trans a4, b5.trans a5, b6.trans a6,
    b7.trans a7, b8.trans a8, b9.trans a9, b10.trans a10, b11.trans a11, b12.trans a12,
    b13.trans a13⟩

theorem plain_of_get {cls : Cls} {k : String} {d : PropertyDeclaration}
    (hplain : plainCls cls = true) (hd : getPropertyDeclaration cls k = some d) :
    plainDecl d = true := by
  unfold getPropertyDeclaration alget at hd
  cases hf : cls.properties.find? (fun p => p.1 == k) with
  | none => rw [hf] at hd; simp at hd
  | some p =>
    rw [hf] at hd
    simp only [Option.map_some'] at hd
    have hmem := List.mem_of_find?_eq_some hf
    have hall := List.all_eq_true.mp hplain p hmem
    have hpd : p.2 = d := Option.some.inj hd
    rw [← hpd]
    exact hall

/-- Under the reflecting guard, `removeAttribute` only removes the attribute. -/
theorem removeAttribute_guard (cls : Cls) (name : String) (w : World)
    (h : w.el.isReflecting = true) :
    removeAttribute cls name w
      = ((.ok ()), { w with el := { w.el with attrs := alremove w.el.attrs name } }) := by
  unfold removeAttribute
  cases hg : alget w.el.attrs name with
  | none =>
    simp only []
    rw [alremove_of_absent _ _ hg]
  | some oldValue =>
    simp only []
    by_cases ho : observedAttr cls name = true
    · simp only [ho, if_true]
      exact acc_guard _ _ _ _ _ (by simpa using h)
    · simp [ho]

/-- Under the reflecting guard, the default property reflector succeeds and
touches at most the attribute store. -/
theorem defaultReflectProperty_attrsOnly (cls : Cls) (k : String) (o n : Value) (w : World)
    (d : PropertyDeclaration) (hd : getPropertyDeclaration cls k = some d)
    (h : w.el.isReflecting = true) :
    ∃ a2, defaultReflectProperty cls k o n w
      = ((.ok ()), { w with el := { w.el with attrs := a2 } }) := by
  unfold defaultReflectProperty
  simp only [hd]
  cases hattr : d.«attribute» with
  | none =>
    refine ⟨w.el.attrs, ?_⟩
    simp only [hattr]
  | some attributeName =>
    cases hv : d.converter.toAttribute n with
    | undef =>
      refine ⟨w.el.attrs, ?_⟩
      simp only [hattr, hv]
    | null =>
      refine ⟨alremove w.el.attrs attributeName, ?_⟩
      simp only [hattr, hv]
      exact removeAttribute_guard cls attributeName w h
    | nan =>
      refine ⟨alset w.el.attrs attributeName (valueToString Value.nan), ?_⟩
      simp only [hattr, hv]
      exact setAttribute_guard cls attributeName _ w h
    | bool b =>
      refine ⟨alset w.el.attrs attributeName (valueToString (Value.bool b)), ?_⟩
      simp only [hattr, hv]
      exact setAttribute_guard cls attributeName _ w h
    | num m =>
      refine ⟨alset w.el.attrs attributeName (valueToString (Value.num m)), ?_⟩
      simp only [hattr, hv]
      exact setAttribute_guard cls attributeName _ w h
    | str s =>
      refine ⟨alset w.el.attrs attributeName (valueToString (Value.str s)), ?_⟩
      simp only [hattr, hv]
      exact setAttribute_guard cls attributeName _ w h

/-- A plain (default-configured) property reflection succeeds and preserves
everything a pass depends on, the trace and events included. -/
theorem reflectProperty_plain (cls : Cls) (k : String) (o n : Value) (w : World)
    (hplain : plainCls cls = true) :
    ∃ w2, reflectProperty cls k o n w = ((.ok ()), w2) ∧ PassFrame w w2 ∧
      w2.el.trace = w.el.trace ∧ w2.el.events = w.el.events := by
  unfold reflectProperty
  split
  · exact ⟨w, rfl, passFrame_refl w, rfl, rfl⟩
  next d hd =>
    have hpd := plain_of_get hplain hd
    split
    · exact ⟨w, rfl, passFrame_refl w, rfl, rfl⟩
    next name f hr =>
      simp [plainDecl, hr, HandlerOpt.isSimple] at hpd
    next mk hr =>
      simp [plainDecl, hr, HandlerOpt.isSimple] at hpd
    next hr =>
      obtain ⟨a2, h2⟩ := defaultReflectProperty_attrsOnly cls k o n
        { w with el := { w.el with isReflecting := true } } d hd rfl
      simp only [h2]
      refine ⟨_, rfl, ?_, rfl, rfl⟩
      exact ⟨rfl, rfl, rfl, rfl, rfl, rfl, rfl, rfl, rfl, rfl, rfl, rfl, rfl⟩

/-- A plain property notification succeeds and at most dispatches an event. -/
theorem notifyProperty_plain (cls : Cls) (k : String) (o n : Value) (w : World)
    (hplain : plainCls cls = true) :
    ∃ w2, notifyProperty cls k o n w = ((.ok ()), w2) ∧ PassFrame w w2 ∧
      w2.el.trace = w.el.trace ∧ w2.el.attrs = w.el.attrs ∧
      w2.el.isReflecting = w.el.isReflecting := by
  unfold notifyProperty
  split
  · exact ⟨w, rfl, passFrame_refl w, rfl, rfl, rfl⟩
  next d hd =>
    have hpd := plain_of_get hplain hd
    split
    · exact ⟨w, rfl, passFrame_refl w, rfl, rfl, rfl⟩
    next name f hr =>
      simp [plainDecl, hr, HandlerOpt.isSimple] at hpd
    next mk hr =>
      simp [plainDecl, hr, HandlerOpt.isSimple] at hpd
    next hr =>
      refine ⟨_, rfl, ?_, rfl, rfl, rfl⟩
      exact ⟨rfl, rfl, rfl, rfl, rfl, rfl, rfl, rfl, rfl, rfl, rfl, rfl, rfl⟩

/-- Iterating plain reflections succeeds, records one `reflect` trace entry
per processed entry, and preserves the pass-relevant state. -/
theorem reflectRun_plain (cls : Cls) (entries : List (String × Value)) (w : World)
    (hplain : plainCls cls = true) :
    ∃ w2, reflectRun cls entries w = ((.ok ()), w2) ∧ PassFrame w w2 ∧
      w2.el.trace = w.el.trace ++ entries.map (fun q => TraceEv.reflect q.1) := by
  induction entries generalizing w with
  | nil => exact ⟨w, rfl, passFrame_refl w, by simp⟩
  | cons q rest ih =>
    obtain ⟨k0, v0⟩ := q
    obtain ⟨w2, h2, hf2, ht2, _⟩ := reflectProperty_plain cls k0 v0
      ((alget ({ w with el := { w.el with
          trace := w.el.trace ++ [TraceEv.reflect k0] } } : World).el.props k0).getD Value.undef)
      { w with el := { w.el with trace := w.el.trace ++ [TraceEv.reflect k0] } } hplain
    obtain ⟨w3, h3, hf3, ht3⟩ := ih w2
    refine ⟨w3, ?_, ?_, ?_⟩
    · unfold reflectRun
      simp only [h2, h3]
    · exact passFrame_trans (passFrame_trans
        ⟨rfl, rfl, rfl, rfl, rfl, rfl, rfl, rfl, rfl, rfl, rfl, rfl, rfl⟩ hf2) hf3
    · rw [ht3, ht2]
      simp

/-- Iterating plain notifications succeeds, records one `notify` trace entry
per processed entry, and preserves the pass-relevant state. -/
theorem notifyRun_plain (cls : Cls) (entries : List (String × Value)) (w : World)
    (hplain : plainCls cls = true) :
    ∃ w2, notifyRun cls entries w = ((.ok ()), w2) ∧ PassFrame w w2 ∧
      w2.el.trace = w.el.trace ++ entries.map (fun q => TraceEv.notify q.1) := by
  induction entries generalizing w with
  | nil => exact ⟨w, rfl, passFrame_refl w, by simp⟩
  | cons q rest ih =>
    obtain ⟨k0, v0⟩ := q
    obtain ⟨w2, h2, hf2, ht2, _, _⟩ := notifyProperty_plain cls k0 v0
      ((alget ({ w with el := { w.el with
          trace := w.el.trace ++ [TraceEv.notify k0] } } : World).el.props k0).getD Value.undef)
      { w with el := { w.el with trace := w.el.trace ++ [TraceEv.notify k0] } } hplain
    obtain ⟨w3, h3, hf3, ht3⟩ := ih w2
    refine ⟨w3, ?_, ?_, ?_⟩
    · unfold notifyRun
      simp only [h2, h3]
    · exact passFrame_trans (passFrame_trans
        ⟨rfl, rfl, rfl, rfl, rfl, rfl, rfl, rfl, rfl, rfl, rfl, rfl, rfl⟩ hf2) hf3
    · rw [ht3, ht2]
      simp

/-- Under a plain class, one `update()` pass succeeds, leaves the dirty maps
and the scheduler untouched, sets `hasUpdated`, and its trace is exactly:
render, the reflect entries in order, the notify entries in order, then the
update hook with the full changed map and the first-update flag. -/
theorem update_plain (cls : Cls) (w : World) (hplain : plainCls cls = true) :
    ∃ w2, update cls w = ((.ok ()), w2) ∧
      w2.promises = w.promises ∧ w2.nextId = w.nextId ∧ w2.micro = w.micro ∧
      w2.raf = w.raf ∧ w2.frames = w.frames ∧ w2.uncaught = w.uncaught ∧
      w2.el.props = w.el.props ∧
      w2.el.changedProperties = w.el.changedProperties ∧
      w2.el.reflectingProperties = w.el.reflectingProperties ∧
      w2.el.notifyingProperties = w.el.notifyingProperties ∧
      w2.el.hasRequestedUpdate = w.el.hasRequestedUpdate ∧
      w2.el.updateRequest = w.el.updateRequest ∧
      w2.el.hasUpdated = true ∧
      w2.el.trace = w.el.trace ++ [TraceEv.render]
        ++ w.el.reflectingProperties.map (fun q => TraceEv.reflect q.1)
        ++ w.el.notifyingProperties.map (fun q => TraceEv.notify q.1)
        ++ [TraceEv.updateDone w.el.changedProperties (!w.el.hasUpdated)] := by
  obtain ⟨wr, hr, hfr, htr⟩ :=
    reflectRun_plain cls (render w).el.reflectingProperties (render w) hplain
  obtain ⟨wn, hn, hfn, htn⟩ := notifyRun_plain cls wr.el.notifyingProperties wr hplain
  obtain ⟨r1, r2, r3, r4, r5, r6, r7, r8, r9, r10, r11, r12, r13⟩ := hfr
  obtain ⟨n1, n2, n3, n4, n5, n6, n7, n8, n9, n10, n11, n12, n13⟩ := hfn
  rcases hu : update cls w with ⟨f, w2⟩
  have hu2 := hu
  unfold update at hu2
  simp only [hr, hn] at hu2
  obtain ⟨hf, hw⟩ := Prod.mk.inj hu2.symm
  subst hw
  subst hf
  refine ⟨_, rfl, ?_, ?_, ?_, ?_, ?_, ?_, ?_, ?_, ?_, ?_, ?_, ?_, ?_, ?_⟩
  all_goals
    simp [updateCallback, render, r1, r2, r3, r4, r5, r6, r7, r8, r9, r10, r11, r12, r13,
      n1, n2, n3, n4, n5, n6, n7, n8, n9, n10, n11, n12, n13, htr, htn, List.append_assoc] at *

/-- While an update is already pending, `requestUpdate` never touches the
scheduler: no promise is created, no task queued, and the pending flag and
promise are returned unchanged — later requests coalesce into the pass. -/
theorem requestUpdate_pending (cls : Cls) (k : Option String) (o n : Value) (w : World)
    (h : w.el.hasRequestedUpdate = true) :
    (requestUpdate cls k o n w).2.promises = w.promises ∧
    (requestUpdate cls k o n w).2.nextId = w.nextId ∧
    (requestUpdate cls k o n w).2.micro = w.micro ∧
    (requestUpdate cls k o n w).2.raf = w.raf ∧
    (requestUpdate cls k o n w).2.frames = w.frames ∧
    (requestUpdate cls k o n w).2.el.updateRequest = w.el.updateRequest ∧
    (requestUpdate cls k o n w).2.el.hasRequestedUpdate = true := by
  unfold requestUpdate
  cases k with
  | none => simp [h]
  | some s =>
    by_cases hs : s = ""
    · simp [hs, h]
    · simp only [if_neg hs]
      cases hc : hasChanged cls s o n with
      | error e => simp [h]
      | ok b =>
        cases b with
        | false => simp [h]
        | true =>
          by_cases hr : w.el.isReflecting = true
          · simp [hr, h]
          · simp at hr
            simp [hr, h]

/-- One `requestUpdate` step preserves the turn invariant: the scheduler is
still idle, or exactly one pass is pending. -/
theorem requestUpdate_inv (cls : Cls) (k : Option String) (o n : Value) (w : World)
    (h : SchedIdle w ∨ SchedOnePending w) :
    SchedIdle (requestUpdate cls k o n w).2 ∨ SchedOnePending (requestUpdate cls k o n w).2 := by
  rcases h with hA | hB
  · obtain ⟨h1, h2, h3, h4, h5, h6, h7⟩ := hA
    have henq : SchedOnePending (enqueueUpdate w) := by
      unfold enqueueUpdate awaitOn
      simp only [h1, h2, h3, h4, h5, h6, h7]
      refine ⟨?_, rfl, ?_, ?_, rfl, rfl, rfl⟩ <;> simp [alget, alset, alhas, List.find?]
    unfold requestUpdate
    cases k with
    | none =>
      right
      simpa [h7] using henq
    | some s =>
      by_cases hs : s = ""
      · right
        simpa [hs, h7] using henq
      · simp only [if_neg hs]
        cases hc : hasChanged cls s o n with
        | error e => exact Or.inl ⟨h1, h2, h3, h4, h5, h6, h7⟩
        | ok b =>
          cases b with
          | false => exact Or.inl ⟨h1, h2, h3, h4, h5, h6, h7⟩
          | true =>
            right
            have henq2 : SchedOnePending (enqueueUpdate
                { w with el :=
                    if !({ w.el with changedProperties := alset w.el.changedProperties s o } : El).isReflecting
                    then { ({ w.el with changedProperties := alset w.el.changedProperties s o } : El) with
                        reflectingProperties :=
                          alset ({ w.el with changedProperties := alset w.el.changedProperties s o } : El).reflectingProperties s o }
                    else { w.el with changedProperties := alset w.el.changedProperties s o } }) := by
              unfold enqueueUpdate awaitOn
              by_cases hrf : w.el.isReflecting = true
              · simp only [hrf]
                simp only [h1, h2, h3, h4, h5, h6, h7]
                refine ⟨?_, rfl, ?_, ?_, rfl, rfl, rfl⟩ <;> simp [alget, alset, alhas, List.find?]
              · simp only [Bool.not_eq_true] at hrf
                simp only [hrf]
                simp only [h1, h2, h3, h4, h5, h6, h7]
                refine ⟨?_, rfl, ?_, ?_, rfl, rfl, rfl⟩ <;> simp [alget, alset, alhas, List.find?]
            by_cases hrf : w.el.isReflecting = true
            · simpa [hrf, h7] using henq2
            · simp only [Bool.not_eq_true] at hrf
              simpa [hrf, h7] using henq2
  · right
    have hreq : w.el.hasRequestedUpdate = true := hB.2.2.2.2.2.2
    obtain ⟨p1, p2, p3, p4, p5, p6, p7⟩ := requestUpdate_pending cls k o n w hreq
    obtain ⟨b1, b2, b3, b4, b5, b6, b7⟩ := hB
    exact ⟨p1.trans b1, p2.trans b2, p3.trans b3, p4.trans b4, p5.trans b5, p6.trans b6, p7⟩

/-- The turn invariant holds across any sequence of synchronous
`requestUpdate` calls. -/
theorem applyReqs_inv (cls : Cls) (reqs : List Req) (w : World)
    (h : SchedIdle w ∨ SchedOnePending w) :
    SchedIdle (applyReqs cls reqs w) ∨ SchedOnePending (applyReqs cls reqs w) := by
  induction reqs generalizing w with
  | nil => exact h
  | cons r rest ih =>
    have hstep := requestUpdate_inv cls r.key r.oldValue r.newValue w h
    have : applyReqs cls (r :: rest) w
        = applyReqs cls rest (requestUpdate cls r.key r.oldValue r.newValue w).2 := by
      simp [applyReqs]
    rw [this]
    exact ih _ hstep

/-- `resolveProm` only touches the promise table and the microtask queue. -/
theorem resolveProm_el (w : World) (p : Nat) (v : Bool) : (resolveProm w p v).el = w.el := by
  unfold resolveProm
  split <;> rfl

/-- `await` registration does not touch the element. -/
theorem awaitOn_el (w : World) (p : Nat) (t : Task) : (awaitOn w p t).el = w.el := by
  unfold awaitOn
  split <;> rfl

/-- The synchronous prefix of `_enqueueUpdate` touches only the pending flag
and the `_updateRequest` promise id on the element. -/
theorem enqueueUpdate_el (w : World) :
    (enqueueUpdate w).el
      = { w.el with hasRequestedUpdate := true, updateRequest := w.nextId } := by
  unfold enqueueUpdate
  rw [awaitOn_el]

/-- An accepted keyed `requestUpdate` records the old value in
`changedProperties` (overwriting any earlier entry for the key), leaves the
property storage alone, records the key for reflection exactly when the
element is not currently reflecting, and preserves the reflecting flag. -/
theorem requestUpdate_keyed_true (cls : Cls) (k : String) (o n : Value) (w : World)
    (hk : ¬ k = "") (hc : hasChanged cls k o n = .ok true) :
    (requestUpdate cls (some k) o n w).2.el.changedProperties = alset w.el.changedProperties k o ∧
    (requestUpdate cls (some k) o n w).2.el.props = w.el.props ∧
    (requestUpdate cls (some k) o n w).2.el.reflectingProperties
      = (if w.el.isReflecting then w.el.reflectingProperties
         else alset w.el.reflectingProperties k o) ∧
    (requestUpdate cls (some k) o n w).2.el.isReflecting = w.el.isReflecting := by
  unfold requestUpdate
  simp only [if_neg hk, hc]
  by_cases hrf : w.el.isReflecting = true
  · by_cases hrq : w.el.hasRequestedUpdate = true
    · simp [hrf, hrq]
    · simp only [Bool.not_eq_true] at hrq
      simp [hrf, hrq, enqueueUpdate_el]
  · simp only [Bool.not_eq_true] at hrf
    by_cases hrq : w.el.hasRequestedUpdate = true
    · simp [hrf, hrq]
    · simp only [Bool.not_eq_true] at hrq
      simp [hrf, hrq, enqueueUpdate_el]

/-- While the reflecting guard is held, no `requestUpdate` call ever adds to
`reflectingProperties`. -/
theorem requestUpdate_reflecting_guarded (cls : Cls) (k : Option String) (o n : Value)
    (w : World) (h : w.el.isReflecting = true) :
    (requestUpdate cls k o n w).2.el.reflectingProperties = w.el.reflectingProperties := by
  unfold requestUpdate
  cases k with
  | none =>
    by_cases hrq : w.el.hasRequestedUpdate = true
    · simp [hrq]
    · simp only [Bool.not_eq_true] at hrq
      simp [hrq, enqueueUpdate_el]
  | some s =>
    by_cases hs : s = ""
    · simp only [hs, if_pos rfl]
      by_cases hrq : w.el.hasRequestedUpdate = true
      · simp [hrq]
      · simp only [Bool.not_eq_true] at hrq
        simp [hrq, enqueueUpdate_el]
    · simp only [if_neg hs]
      cases hc : hasChanged cls s o n with
      | error e => simp
      | ok b =>
        cases b with
        | false => simp
        | true =>
          by_cases hrq : w.el.hasRequestedUpdate = true
          · simp [h, hrq]
          · simp only [Bool.not_eq_true] at hrq
            simp [h, hrq, enqueueUpdate_el]

/-- Under a plain class, the frame callback runs the pass, clears the three
dirty maps, resets `hasRequestedUpdate`, and resolves the scheduling promise
on a world whose scheduler fields it did not otherwise touch. -/
theorem runFrame_plain (cls : Cls) (p : Nat) (w : World) (hplain : plainCls cls = true) :
    ∃ wc, runFrame cls p w = resolveProm wc p true ∧
      wc.promises = w.promises ∧ wc.nextId = w.nextId ∧ wc.micro = w.micro ∧
      wc.raf = w.raf ∧ wc.frames = w.frames + 1 ∧ wc.uncaught = w.uncaught ∧
      wc.el.props = w.el.props ∧
      wc.el.changedProperties = [] ∧ wc.el.reflectingProperties = [] ∧
      wc.el.notifyingProperties = [] ∧ wc.el.hasRequestedUpdate = false ∧
      wc.el.updateRequest = w.el.updateRequest ∧ wc.el.hasUpdated = true ∧
      wc.el.trace = w.el.trace ++ [TraceEv.render]
        ++ w.el.reflectingProperties.map (fun q => TraceEv.reflect q.1)
        ++ w.el.notifyingProperties.map (fun q => TraceEv.notify q.1)
        ++ [TraceEv.updateDone w.el.changedProperties (!w.el.hasUpdated)] := by
  obtain ⟨w2, h2, c1, c2, c3, c4, c5, c6, c7, c8, c9, c10, c11, c12, c13, c14⟩ :=
    update_plain cls { w with frames := w.frames + 1 } hplain
  refine ⟨{ w2 with el := { w2.el with
      changedProperties := ([] : List (String × Value)),
      reflectingProperties := ([] : List (String × Value)),
      notifyingProperties := ([] : List (String × Value)),
      hasRequestedUpdate := false } }, ?_, ?_, ?_, ?_, ?_, ?_, ?_, ?_, rfl, rfl, rfl, rfl, ?_, ?_, ?_⟩
  · unfold runFrame
    simp only [h2]
  · simpa using c1
  · simpa using c2
  · simpa using c3
  · simpa using c4
  · simpa using c5
  · simpa using c6
  · simpa using c7
  · simpa using c12
  · simpa using c13
  · simpa using c14

/-- From the one-pending state, running the host loop to quiescence executes
exactly one frame, leaves no queued work, and resolves the `_updateRequest`
promise with `true`. -/
theorem runAll_onePending (cls : Cls) (w : World) (hplain : plainCls cls = true)
    (hB : SchedOnePending w) :
    (runAll cls 4 w).frames = 1 ∧ (runAll cls 4 w).micro = [] ∧ (runAll cls 4 w).raf = [] ∧
    alget (runAll cls 4 w).promises 1 = some (PromState.resolved true) := by
  obtain ⟨b1, b2, b3, b4, b5, b6, b7⟩ := hB
  have hA : runTask cls (Task.resume1 1) { w with micro := [] }
      = { w with
          micro := ([] : List Task),
          nextId := 3,
          raf := [2],
          promises := [(0, PromState.resolved true), (1, PromState.pending []), (2, PromState.pending [Task.resume2 1])] } := by
    unfold runTask scheduleUpdate awaitOn
    simp only [b1, b2, b4]
    simp [alget, alset, alhas, List.find?]
  have hD1 : drainMicro cls (3 + 1) w
      = { w with
          micro := ([] : List Task),
          nextId := 3,
          raf := [2],
          promises := [(0, PromState.resolved true), (1, PromState.pending []), (2, PromState.pending [Task.resume2 1])] } := by
    unfold drainMicro
    rw [b3]
    simp only []
    rw [hA]
    show drainMicro cls (2 + 1) _ = _
    unfold drainMicro
    rfl
  have hframe := runFrame_plain cls 2
    { w with
      micro := ([] : List Task),
      nextId := 3,
      raf := ([] : List Nat),
      promises := [(0, PromState.resolved true), (1, PromState.pending []), (2, PromState.pending [Task.resume2 1])] } hplain
  obtain ⟨wc, hrf, c1, c2, c3, c4, c5, c6, c7, c8, c9, c10, c11, c12, c13, c14⟩ := hframe
  have hres : resolveProm wc 2 true
      = { wc with
          promises := [(0, PromState.resolved true), (1, PromState.pending []), (2, PromState.resolved true)],
          micro := [Task.resume2 1] } := by
    unfold resolveProm
    rw [c1]
    simp only [c3]
    simp [alget, alset, alhas, List.find?]
  rw [hres] at hrf
  have hT2 : runTask cls (Task.resume2 1)
        { wc with
          promises := [(0, PromState.resolved true), (1, PromState.pending []), (2, PromState.resolved true)],
          micro := ([] : List Task) }
      = { wc with
          promises := [(0, PromState.resolved true), (1, PromState.resolved true), (2, PromState.resolved true)],
          micro := ([] : List Task) } := by
    unfold runTask
    simp only []
    rw [show ({ wc with
        promises := [(0, PromState.resolved true), (1, PromState.pending []), (2, PromState.resolved true)],
        micro := ([] : List Task) } : World).el.hasRequestedUpdate = false from c11]
    unfold resolveProm
    simp [alget, alset, alhas, List.find?]
  have hD2 : drainMicro cls (2 + 1)
        { wc with
          promises := [(0, PromState.resolved true), (1, PromState.pending []), (2, PromState.resolved true)],
          micro := [Task.resume2 1] }
      = { wc with
          promises := [(0, PromState.resolved true), (1, PromState.resolved true), (2, PromState.resolved true)],
          micro := ([] : List Task) } := by
    conv_lhs => unfold drainMicro
    simp only []
    rw [hT2]
    rfl
  have hrun3 : runAll cls (3 + 1) w
      = runAll cls 3
        { wc with
          promises := [(0, PromState.resolved true), (1, PromState.pending []), (2, PromState.resolved true)],
          micro := [Task.resume2 1] } := by
    conv_lhs => unfold runAll
    rw [hD1]
    simp only []
    rw [hrf]
  have hrun0 : runAll cls 3
        { wc with
          promises := [(0, PromState.resolved true), (1, PromState.pending []), (2, PromState.resolved true)],
          micro := [Task.resume2 1] }
      = { wc with
          promises := [(0, PromState.resolved true), (1, PromState.resolved true), (2, PromState.resolved true)],
          micro := ([] : List Task) } := by
    show runAll cls (2 + 1) _ = _
    conv_lhs => unfold runAll
    rw [hD2]
    rw [show ({ wc with
        promises := [(0, PromState.resolved true), (1, PromState.resolved true), (2, PromState.resolved true)],
        micro := ([] : List Task) } : World).raf = [] from by simpa using c4]
  have hfin : runAll cls 4 w
      = { wc with
          promises := [(0, PromState.resolved true), (1, PromState.resolved true), (2, PromState.resolved true)],
          micro := ([] : List Task) } := by
    show runAll cls (3 + 1) w = _
    rw [hrun3, hrun0]
  rw [hfin]
  refine ⟨?_, rfl, ?_, ?_⟩
  · show wc.frames = 1
    rw [c5]
    simp [b5]
  · show wc.raf = []
    simpa using c4
  · simp [alget, List.find?]

/-- C1: evaluation of the code at the failing input.  A custom
`reflectAttribute` handler that throws makes the attribute-changed call throw
the wrapped ATTRIBUTE_REFLECTOR_ERROR naming the handler — but, contrary to
the claim, `_isReflecting` is left `true` (the source resets it only on the
success path; there is no `finally`), and a subsequent unrelated property
write is consequently NOT marked for reflection: its key is recorded in
`changedProperties` but `reflectingProperties` stays empty. -/
theorem c1_throwing_reflector_leaves_guard_set :
    (attributeChangedCallback clsBoom "foo" none (some "x") (mkWorld elBoom)).1
      = .error (.attributeReflectorError "boom") ∧
    (attributeChangedCallback clsBoom "foo" none (some "x") (mkWorld elBoom)).2.el.isReflecting
      = true ∧
    (setProperty clsBoom "bar" (Value.num 1)
        (attributeChangedCallback clsBoom "foo" none (some "x") (mkWorld elBoom)).2).2.el.reflectingProperties
      = [] ∧
    alget (setProperty clsBoom "bar" (Value.num 1)
        (attributeChangedCallback clsBoom "foo" none (some "x") (mkWorld elBoom)).2).2.el.changedProperties "bar"
      = some (Value.num 0) :=
  ⟨rfl, rfl, rfl, rfl⟩

/-- C3: counterexample.  The source stores each accepted write's own old
value (`this._changedProperties.set(propertyKey, oldValue)` with no
presence check), so after `count` goes 0→5 and then 5→7 in one batched turn,
`changedProperties` maps `count` to 5 — not to the oldest pre-batch value 0
as claimed — while the final property value is 7. -/
theorem c3_counterexample :
    alget (setProperty clsCount "count" (Value.num 7)
        (setProperty clsCount "count" (Value.num 5) (mkWorld elCount)).2).2.el.changedProperties "count"
      = some (Value.num 5) ∧
    ¬ alget (setProperty clsCount "count" (Value.num 7)
        (setProperty clsCount "count" (Value.num 5) (mkWorld elCount)).2).2.el.changedProperties "count"
      = some (Value.num 0) ∧
    alget (setProperty clsCount "count" (Value.num 7)
        (setProperty clsCount "count" (Value.num 5) (mkWorld elCount)).2).2.el.props "count"
      = some (Value.num 7) :=
  ⟨rfl, by decide, rfl⟩

/-- C3 (amended): for two consecutive accepted writes to the same declared
property within one turn, the `changedProperties` entry holds the old value
captured by the most recent accepted write (the last pre-write value), and
the property holds the final value. -/
theorem c3_last_write_old_value (cls : Cls) (k : String) (v0 v1 v2 : Value) (w : World)
    (d : PropertyDeclaration) (nm : String) (f : Value → Value → Except Unit Bool)
    (hk : ¬ k = "") (hd : getPropertyDeclaration cls k = some d) (hobs : d.observe = .fn nm f)
    (h01 : f v0 v1 = .ok true) (h12 : f v1 v2 = .ok true)
    (hv0 : alget w.el.props k = some v0) :
    alget (setProperty cls k v2 (setProperty cls k v1 w).2).2.el.changedProperties k
      = some v1 ∧
    alget (setProperty cls k v2 (setProperty cls k v1 w).2).2.el.props k = some v2 := by
  have hc1 : hasChanged cls k v0 v1 = .ok true := by
    unfold hasChanged
    simp [hd, hobs, h01]
  have hc2 : hasChanged cls k v1 v2 = .ok true := by
    unfold hasChanged
    simp [hd, hobs, h12]
  have hs1 : setProperty cls k v1 w
      = requestUpdate cls (some k) v0 v1
          { w with el := { w.el with props := alset w.el.props k v1 } } := by
    unfold setProperty
    simp only [hd]
    rw [hv0]
    simp only [Option.getD_some]
  obtain ⟨q1, q2, q3, q4⟩ := requestUpdate_keyed_true cls k v0 v1
    { w with el := { w.el with props := alset w.el.props k v1 } } hk hc1
  have hold2 : alget (setProperty cls k v1 w).2.el.props k = some v1 := by
    rw [hs1, q2]
    simp only []
    exact alget_alset_self _ _ _
  have hs2 : setProperty cls k v2 (setProperty cls k v1 w).2
      = requestUpdate cls (some k) v1 v2
          { (setProperty cls k v1 w).2 with el := { (setProperty cls k v1 w).2.el with
              props := alset (setProperty cls k v1 w).2.el.props k v2 } } := by
    set Z := (setProperty cls k v1 w).2 with hZ
    unfold setProperty
    simp only [hd]
    rw [hold2]
    simp only [Option.getD_some]
  obtain ⟨r1, r2, r3, r4⟩ := requestUpdate_keyed_true cls k v1 v2
    { (setProperty cls k v1 w).2 with el := { (setProperty cls k v1 w).2.el with
        props := alset (setProperty cls k v1 w).2.el.props k v2 } } hk hc2
  constructor
  · rw [hs2, r1]
    simp only []
    exact alget_alset_self _ _ _
  · rw [hs2, r2]
    simp only []
    exact alget_alset_self _ _ _

/-- C3 (witness): the amended statement at the concrete scenario — `count`
declared with the default change detector, written 0→5 then 5→7. -/
theorem c3_witness :
    alget (setProperty clsCount "count" (Value.num 7)
        (setProperty clsCount "count" (Value.num 5) (mkWorld elCount)).2).2.el.changedProperties "count"
      = some (Value.num 5) ∧
    alget (setProperty clsCount "count" (Value.num 7)
        (setProperty clsCount "count" (Value.num 5) (mkWorld elCount)).2).2.el.props "count"
      = some (Value.num 7) :=
  c3_last_write_old_value clsCount "count" (Value.num 0) (Value.num 5) (Value.num 7)
    (mkWorld elCount) (defaultDeclaration (some "count")) "defaultChangeDetector"
    (fun x y => .ok (defaultChangeDetector x y)) (by decide) rfl rfl rfl rfl rfl

/-- C4: two-way reflection never ping-pongs.  While `_isReflecting` is held,
the attribute-changed callback returns immediately with the world untouched;
no `requestUpdate` issued under the guard adds to `reflectingProperties`;
and, end to end, writing 5 to the two-way-reflected `count` runs exactly one
pass that mirrors the value to the attribute, after which no further pass,
task or dirty entry is pending. -/
theorem c4_no_reflection_pingpong :
    (∀ (cls : Cls) (a : String) (o n : Option String) (w : World),
      w.el.isReflecting = true → attributeChangedCallback cls a o n w = ((.ok ()), w)) ∧
    (∀ (cls : Cls) (k : Option String) (o n : Value) (w : World),
      w.el.isReflecting = true →
      (requestUpdate cls k o n w).2.el.reflectingProperties = w.el.reflectingProperties) ∧
    (alget (runAll clsCount 4
        (setProperty clsCount "count" (Value.num 5) (mkWorld elCount)).2).el.attrs "count"
      = some "5" ∧
    (runAll clsCount 4
        (setProperty clsCount "count" (Value.num 5) (mkWorld elCount)).2).frames = 1 ∧
    (runAll clsCount 4
        (setProperty clsCount "count" (Value.num 5) (mkWorld elCount)).2).micro = [] ∧
    (runAll clsCount 4
        (setProperty clsCount "count" (Value.num 5) (mkWorld elCount)).2).raf = [] ∧
    (runAll clsCount 4
        (setProperty clsCount "count" (Value.num 5) (mkWorld elCount)).2).el.changedProperties = [] ∧
    (runAll clsCount 4
        (setProperty clsCount "count" (Value.num 5) (mkWorld elCount)).2).el.reflectingProperties = [] ∧
    (runAll clsCount 4
        (setProperty clsCount "count" (Value.num 5) (mkWorld elCount)).2).el.hasRequestedUpdate = false ∧
    alget (runAll clsCount 4
        (setProperty clsCount "count" (Value.num 5) (mkWorld elCount)).2).el.props "count"
      = some (Value.num 5)) :=
  ⟨acc_guard, requestUpdate_reflecting_guarded, rfl, rfl, rfl, rfl, rfl, rfl, rfl, rfl⟩

/-- C4 (witness): the guarded clauses at a concrete reflecting element. -/
theorem c4_witness :
    attributeChangedCallback clsCount "count" (some "1") (some "2")
        (mkWorld { elCount with isReflecting := true })
      = ((.ok ()), mkWorld { elCount with isReflecting := true }) ∧
    (requestUpdate clsCount (some "count") (Value.num 0) (Value.num 5)
        (mkWorld { elCount with isReflecting := true })).2.el.reflectingProperties
      = (mkWorld { elCount with isReflecting := true }).el.reflectingProperties :=
  ⟨c4_no_reflection_pingpong.1 clsCount "count" (some "1") (some "2")
      (mkWorld { elCount with isReflecting := true }) rfl,
    c4_no_reflection_pingpong.2.1 clsCount (some "count") (Value.num 0) (Value.num 5)
      (mkWorld { elCount with isReflecting := true }) rfl⟩

/-- C5: counterexample.  In an idle world, a keyed `requestUpdate` whose
detector reports no change returns the initial `_updateRequest` promise,
which is already resolved even though no update pass has ever completed and
none is scheduled — so not every call returns a promise resolving only after
the next completed pass. -/
theorem c5_counterexample :
    requestUpdate clsCount (some "count") (Value.num 0) (Value.num 0) (mkWorld elCount)
      = (.ok 0, mkWorld elCount) ∧
    alget (mkWorld elCount).promises 0 = some (PromState.resolved true) ∧
    (mkWorld elCount).frames = 0 ∧
    (mkWorld elCount).micro = [] ∧ (mkWorld elCount).raf = [] :=
  ⟨rfl, rfl, rfl, rfl, rfl⟩

/-- C5 (amended): a keyed call with no detected change returns the current
`_updateRequest` unchanged; a call that schedules a pass returns a fresh
promise that is still pending at call time and is resolved — with `true`,
since no further update is pending — only once the loop has executed that
pass. -/
theorem c5_promise_after_pass :
    (∀ (cls : Cls) (k : String) (o n : Value) (w : World),
      ¬ k = "" → hasChanged cls k o n = .ok false →
      requestUpdate cls (some k) o n w = (.ok w.el.updateRequest, w)) ∧
    (∀ (cls : Cls) (el0 : El) (o n : Value), plainCls cls = true →
      (requestUpdate cls none o n (mkWorld el0)).1 = .ok 1 ∧
      alget (requestUpdate cls none o n (mkWorld el0)).2.promises 1
        = some (PromState.pending []) ∧
      (requestUpdate cls none o n (mkWorld el0)).2.frames = 0 ∧
      (runAll cls 4 (requestUpdate cls none o n (mkWorld el0)).2).frames = 1 ∧
      alget (runAll cls 4 (requestUpdate cls none o n (mkWorld el0)).2).promises 1
        = some (PromState.resolved true)) := by
  constructor
  · intro cls k o n w hk hc
    unfold requestUpdate
    simp [if_neg hk, hc]
  · intro cls el0 o n hplain
    have hw2 : (requestUpdate cls none o n (mkWorld el0)).2 = enqueueUpdate (mkWorld el0) := by
      unfold requestUpdate
      have hf : (mkWorld el0).el.hasRequestedUpdate = false := rfl
      simp [hf]
    have hB : SchedOnePending (enqueueUpdate (mkWorld el0)) :=
      ⟨rfl, rfl, rfl, rfl, rfl, rfl, rfl⟩
    obtain ⟨f1, f2, f3, f4⟩ := runAll_onePending cls (enqueueUpdate (mkWorld el0)) hplain hB
    refine ⟨rfl, ?_, ?_, ?_, ?_⟩
    · rw [hw2]
      rfl
    · rw [hw2]
      rfl
    · rw [hw2]
      exact f1
    · rw [hw2]
      exact f4

/-- C5 (witness): both clauses at concrete inputs — the no-change call on
`count` with equal values, and a key-less scheduling call on `clsCount`. -/
theorem c5_witness :
    requestUpdate clsCount (some "count") (Value.num 1) (Value.num 1) (mkWorld elCount)
      = (.ok (mkWorld elCount).el.updateRequest, mkWorld elCount) ∧
    (requestUpdate clsCount none Value.undef Value.undef (mkWorld elCount)).1 = .ok 1 ∧
    alget (runAll clsCount 4
        (requestUpdate clsCount none Value.undef Value.undef (mkWorld elCount)).2).promises 1
      = some (PromState.resolved true) :=
  ⟨c5_promise_after_pass.1 clsCount "count" (Value.num 1) (Value.num 1) (mkWorld elCount)
      (by decide) rfl,
    (c5_promise_after_pass.2 clsCount elCount Value.undef Value.undef rfl).1,
    (c5_promise_after_pass.2 clsCount elCount Value.undef Value.undef rfl).2.2.2.2⟩

/-- C6: under plain (default/disabled) handlers, every frame executes the
pass in the fixed order — render unconditionally, then one reflection per
`reflectingProperties` entry in order, then one notification per
`notifyingProperties` entry in order, then the update hook with the full
`changedProperties` map and the first-update flag — and finally clears the
three dirty maps and resets `hasRequestedUpdate`. -/
theorem c6_update_pass_order (cls : Cls) (p : Nat) (w : World)
    (hplain : plainCls cls = true) :
    (runFrame cls p w).el.changedProperties = [] ∧
    (runFrame cls p w).el.reflectingProperties = [] ∧
    (runFrame cls p w).el.notifyingProperties = [] ∧
    (runFrame cls p w).el.hasRequestedUpdate = false ∧
    (runFrame cls p w).el.trace = w.el.trace ++ [TraceEv.render]
      ++ w.el.reflectingProperties.map (fun q => TraceEv.reflect q.1)
      ++ w.el.notifyingProperties.map (fun q => TraceEv.notify q.1)
      ++ [TraceEv.updateDone w.el.changedProperties (!w.el.hasUpdated)] := by
  obtain ⟨wc, hrf, c1, c2, c3, c4, c5, c6, c7, c8, c9, c10, c11, c12, c13, c14⟩ :=
    runFrame_plain cls p w hplain
  rw [hrf, resolveProm_el]
  exact ⟨c8, c9, c10, c11, c14⟩

/-- C6 (witness): one frame over an element whose three dirty maps each hold
`checked`, on the all-default `clsChecked`. -/
theorem c6_witness :
    (runFrame clsChecked 9 (mkWorld elDirty)).el.changedProperties = [] ∧
    (runFrame clsChecked 9 (mkWorld elDirty)).el.reflectingProperties = [] ∧
    (runFrame clsChecked 9 (mkWorld elDirty)).el.notifyingProperties = [] ∧
    (runFrame clsChecked 9 (mkWorld elDirty)).el.hasRequestedUpdate = false ∧
    (runFrame clsChecked 9 (mkWorld elDirty)).el.trace
      = (mkWorld elDirty).el.trace ++ [TraceEv.render]
        ++ (mkWorld elDirty).el.reflectingProperties.map (fun q => TraceEv.reflect q.1)
        ++ (mkWorld elDirty).el.notifyingProperties.map (fun q => TraceEv.notify q.1)
        ++ [TraceEv.updateDone (mkWorld elDirty).el.changedProperties
            (!(mkWorld elDirty).el.hasUpdated)] :=
  c6_update_pass_order clsChecked 9 (mkWorld elDirty) rfl

/-- C7: counterexample.  The empty string is a property key for which a
declaration with an always-"no difference" detector is registered, yet
`requestUpdate("", v, v)` is not a no-op: under JS truthiness the falsy key
takes the key-less path, so a pass is scheduled (the pending flag is set, a
resumption task is queued) and a fresh promise — not the current pending one
— is returned. -/
theorem c7_counterexample :
    hasChanged clsFalsyKey "" (Value.num 1) (Value.num 1) = .ok false ∧
    (getPropertyDeclaration clsFalsyKey "").isSome = true ∧
    (requestUpdate clsFalsyKey (some "") (Value.num 1) (Value.num 1)
        (mkWorld elBlank)).2.el.hasRequestedUpdate = true ∧
    (requestUpdate clsFalsyKey (some "") (Value.num 1) (Value.num 1)
        (mkWorld elBlank)).2.micro = [Task.resume1 1] ∧
    (requestUpdate clsFalsyKey (some "") (Value.num 1) (Value.num 1)
        (mkWorld elBlank)).1 = .ok 1 ∧
    (mkWorld elBlank).el.updateRequest = 0 :=
  ⟨rfl, rfl, rfl, rfl, rfl, rfl⟩

/-- C7 (amended): for every truthy (non-empty string) property key whose
configured detector reports no difference, `requestUpdate(key, v, v)` is a
complete no-op: the world is unchanged — so no pass is scheduled and the
dirty maps are untouched — and the current `_updateRequest` promise is
returned. -/
theorem c7_no_change_no_op (cls : Cls) (k : String) (v : Value) (w : World)
    (d : PropertyDeclaration) (nm : String) (f : Value → Value → Except Unit Bool)
    (hk : ¬ k = "") (hd : getPropertyDeclaration cls k = some d)
    (hobs : d.observe = .fn nm f) (hf : f v v = .ok false) :
    requestUpdate cls (some k) v v w = (.ok w.el.updateRequest, w) := by
  have hc : hasChanged cls k v v = .ok false := by
    unfold hasChanged
    simp [hd, hobs, hf]
  unfold requestUpdate
  simp [if_neg hk, hc]

/-- C7 (witness): `count` under the default detector with equal values. -/
theorem c7_witness :
    requestUpdate clsCount (some "count") (Value.num 3) (Value.num 3) (mkWorld elCount)
      = (.ok (mkWorld elCount).el.updateRequest, mkWorld elCount) :=
  c7_no_change_no_op clsCount "count" (Value.num 3) (mkWorld elCount)
    (defaultDeclaration (some "count")) "defaultChangeDetector"
    (fun x y => .ok (defaultChangeDetector x y)) (by decide) rfl rfl rfl

/-- C8: counterexample.  With `checked` initially `false`, the block
`watch(() => { checked = true; checked = false; })` leaves the property's
value unchanged across the block, yet a notifying entry for `checked` is
produced (keyed to the intermediate old value `true`) — the diff compares
recorded old values, not net value change. -/
theorem c8_counterexample :
    (watch clsChecked exToggle (mkWorld elChecked)).1 = .ok () ∧
    (watch clsChecked exToggle (mkWorld elChecked)).2.el.notifyingProperties
      = [("checked", Value.bool true)] ∧
    alget (watch clsChecked exToggle (mkWorld elChecked)).2.el.props "checked"
      = some (Value.bool false) ∧
    alget (mkWorld elChecked).el.props "checked" = some (Value.bool false) :=
  ⟨rfl, rfl, rfl, rfl⟩

/-- C8 (amended): `watch` marks as notifying exactly the keys whose
`changedProperties` entry is new or further changed across the executor:
the double-set block yields exactly one notifying entry for `checked`
(mapped to its pre-block value); a block whose only write re-assigns the
current value yields none; and a change-and-revert block still yields one
entry even though the net value is unchanged. -/
theorem c8_watch_diff :
    (watch clsChecked exDouble (mkWorld elChecked)).2.el.notifyingProperties
      = [("checked", Value.bool false)] ∧
    (watch clsChecked exNoop (mkWorld elChecked)).2.el.notifyingProperties = [] ∧
    (watch clsChecked exToggle (mkWorld elChecked)).2.el.notifyingProperties
      = [("checked", Value.bool true)] ∧
    alget (watch clsChecked exToggle (mkWorld elChecked)).2.el.props "checked"
      = alget (mkWorld elChecked).el.props "checked" :=
  ⟨rfl, rfl, rfl, rfl⟩

/-- C9: the default property reflector.  Invoked under the reflecting guard
(as `reflectProperty` always does), it is a no-op when the declaration's
`attribute` option is falsy; otherwise `toAttribute(newValue)` decides:
`undefined` leaves the world untouched, `null` removes the attribute, and a
string sets the attribute to that string — in each case touching nothing
else. -/
theorem c9_default_property_reflector (cls : Cls) (k : String) (o n : Value) (w : World)
    (d : PropertyDeclaration) (hd : getPropertyDeclaration cls k = some d)
    (hg : w.el.isReflecting = true) :
    (d.«attribute» = none → defaultReflectProperty cls k o n w = ((.ok ()), w)) ∧
    (∀ a, d.«attribute» = some a →
      (d.converter.toAttribute n = Value.undef →
        defaultReflectProperty cls k o n w = ((.ok ()), w)) ∧
      (d.converter.toAttribute n = Value.null →
        defaultReflectProperty cls k o n w
          = ((.ok ()), { w with el := { w.el with attrs := alremove w.el.attrs a } })) ∧
      (∀ s, d.converter.toAttribute n = Value.str s →
        defaultReflectProperty cls k o n w
          = ((.ok ()), { w with el := { w.el with attrs := alset w.el.attrs a s } }))) := by
  constructor
  · intro hattr
    unfold defaultReflectProperty
    simp only [hd, hattr]
  · intro a hattr
    refine ⟨?_, ?_, ?_⟩
    · intro hv
      unfold defaultReflectProperty
      simp only [hd, hattr, hv]
    · intro hv
      unfold defaultReflectProperty
      simp only [hd, hattr, hv]
      exact removeAttribute_guard cls a w hg
    · intro s hv
      unfold defaultReflectProperty
      simp only [hd, hattr, hv]
      exact setAttribute_guard cls a s w hg

/-- C9 (witness): the three configured branches on `clsReflect` — a string
result sets attribute `a`, a `null` result removes the present attribute
`b`, and a missing `attribute` option makes the reflector a no-op. -/
theorem c9_witness :
    defaultReflectProperty clsReflect "pa" (Value.num 1) (Value.num 2) wReflect
      = ((.ok ()), { wReflect with el := { wReflect.el with
          attrs := alset wReflect.el.attrs "a" "2" } }) ∧
    defaultReflectProperty clsReflect "pb" (Value.num 1) (Value.num 2) wReflect
      = ((.ok ()), { wReflect with el := { wReflect.el with
          attrs := alremove wReflect.el.attrs "b" } }) ∧
    defaultReflectProperty clsReflect "pd" (Value.num 1) (Value.num 2) wReflect
      = ((.ok ()), wReflect) :=
  ⟨((c9_default_property_reflector clsReflect "pa" (Value.num 1) (Value.num 2) wReflect
      (defaultDeclaration (some "a")) rfl rfl).2 "a" rfl).2.2 "2" rfl,
    ((c9_default_property_reflector clsReflect "pb" (Value.num 1) (Value.num 2) wReflect
      { defaultDeclaration (some "b") with converter := convNull } rfl rfl).2 "b" rfl).2.1 rfl,
    (c9_default_property_reflector clsReflect "pd" (Value.num 1) (Value.num 2) wReflect
      (defaultDeclaration none) rfl rfl).1 rfl⟩

/-- C10: counterexample.  For the empty-string key no declaration is
registered and `hasChanged` returns false, yet `requestUpdate("", o, n)` is
not a no-op: the falsy key takes the key-less path and schedules an update
(pending flag set, resumption task queued, fresh promise returned). -/
theorem c10_counterexample :
    hasChanged clsEmpty "" (Value.num 0) (Value.num 1) = .ok false ∧
    getPropertyDeclaration clsEmpty "" = none ∧
    (requestUpdate clsEmpty (some "") (Value.num 0) (Value.num 1)
        (mkWorld elBlank)).2.el.hasRequestedUpdate = true ∧
    (requestUpdate clsEmpty (some "") (Value.num 0) (Value.num 1)
        (mkWorld elBlank)).2.micro = [Task.resume1 1] ∧
    (requestUpdate clsEmpty (some "") (Value.num 0) (Value.num 1)
        (mkWorld elBlank)).1 = .ok 1 ∧
    (mkWorld elBlank).el.updateRequest = 0 :=
  ⟨rfl, rfl, rfl, rfl, rfl, rfl⟩

/-- C10 (amended): for every truthy (non-empty string) key that has no
registered declaration, or whose declaration's `observe` option is not a
function (`false` or the literal `true`), `hasChanged` returns false and
`requestUpdate` is a complete no-op returning the current pending-update
promise with the world unchanged. -/
theorem c10_undeclared_or_unobserved_no_op (cls : Cls) (k : String) (o n : Value) (w : World)
    (hk : ¬ k = "")
    (h : getPropertyDeclaration cls k = none ∨
      ∃ d, getPropertyDeclaration cls k = some d ∧
        (d.observe = ObserveOpt.off ∨ d.observe = ObserveOpt.on)) :
    hasChanged cls k o n = .ok false ∧
    requestUpdate cls (some k) o n w = (.ok w.el.updateRequest, w) := by
  have hc : hasChanged cls k o n = .ok false := by
    unfold hasChanged
    rcases h with hnone | ⟨d, hd, hobs⟩
    · simp [hnone]
    · rcases hobs with hobs | hobs <;> simp [hd, hobs]
  refine ⟨hc, ?_⟩
  unfold requestUpdate
  simp [if_neg hk, hc]

/-- C10 (witness): the undeclared key `zap` on `clsCount`. -/
theorem c10_witness :
    hasChanged clsCount "zap" (Value.num 0) (Value.num 1) = .ok false ∧
    requestUpdate clsCount (some "zap") (Value.num 0) (Value.num 1) (mkWorld elCount)
      = (.ok (mkWorld elCount).el.updateRequest, mkWorld elCount) :=
  c10_undeclared_or_unobserved_no_op clsCount "zap" (Value.num 0) (Value.num 1)
    (mkWorld elCount) (by decide) (Or.inl rfl)

/-- C2: at most one pass is pending per instance.  While
`hasRequestedUpdate` is true, a `requestUpdate` call leaves the scheduler
untouched — no promise, task or frame is created and the same
`_updateRequest` is kept — and the flag stays set; the scheduler's
resumption tasks never change the flag; only a completed (plain) pass resets
it; any synchronous turn of calls from an idle world leaves the scheduler
idle or with exactly one pending pass; and in the latter case running the
loop executes exactly one frame, after which nothing is queued. -/
theorem c2_single_pending_pass (cls : Cls) :
    (∀ (k : Option String) (o n : Value) (w : World), w.el.hasRequestedUpdate = true →
      (requestUpdate cls k o n w).2.promises = w.promises ∧
      (requestUpdate cls k o n w).2.micro = w.micro ∧
      (requestUpdate cls k o n w).2.raf = w.raf ∧
      (requestUpdate cls k o n w).2.el.updateRequest = w.el.updateRequest ∧
      (requestUpdate cls k o n w).2.el.hasRequestedUpdate = true) ∧
    (∀ (t : Task) (w : World),
      (runTask cls t w).el.hasRequestedUpdate = w.el.hasRequestedUpdate) ∧
    (∀ (p : Nat) (w : World), plainCls cls = true →
      (runFrame cls p w).el.hasRequestedUpdate = false) ∧
    (∀ (reqs : List Req) (el0 : El),
      SchedIdle (applyReqs cls reqs (mkWorld el0)) ∨
      SchedOnePending (applyReqs cls reqs (mkWorld el0))) ∧
    (∀ (reqs : List Req) (el0 : El), plainCls cls = true →
      SchedOnePending (applyReqs cls reqs (mkWorld el0)) →
      (runAll cls 4 (applyReqs cls reqs (mkWorld el0))).frames = 1 ∧
      (runAll cls 4 (applyReqs cls reqs (mkWorld el0))).micro = [] ∧
      (runAll cls 4 (applyReqs cls reqs (mkWorld el0))).raf = []) := by
  refine ⟨?_, ?_, ?_, ?_, ?_⟩
  · intro k o n w h
    obtain ⟨p1, p2, p3, p4, p5, p6, p7⟩ := requestUpdate_pending cls k o n w h
    exact ⟨p1, p3, p4, p6, p7⟩
  · intro t w
    cases t <;> simp [runTask, scheduleUpdate, awaitOn_el, resolveProm_el]
  · intro p w hplain
    obtain ⟨wc, hrf, c1, c2, c3, c4, c5, c6, c7, c8, c9, c10, c11, c12, c13, c14⟩ :=
      runFrame_plain cls p w hplain
    rw [hrf, resolveProm_el]
    exact c11
  · intro reqs el0
    exact applyReqs_inv cls reqs (mkWorld el0) (Or.inl ⟨rfl, rfl, rfl, rfl, rfl, rfl, rfl⟩)
  · intro reqs el0 hplain hB
    obtain ⟨f1, f2, f3, f4⟩ := runAll_onePending cls _ hplain hB
    exact ⟨f1, f2, f3⟩

/-- C2 (witness): coalescing at a pending world, and one coalesced pass for
a two-write synchronous turn on `count`. -/
theorem c2_witness :
    ((requestUpdate clsCount (some "count") (Value.num 0) (Value.num 5) wPending).2.promises
        = wPending.promises ∧
      (requestUpdate clsCount (some "count") (Value.num 0) (Value.num 5) wPending).2.micro
        = wPending.micro ∧
      (requestUpdate clsCount (some "count") (Value.num 0) (Value.num 5) wPending).2.raf
        = wPending.raf ∧
      (requestUpdate clsCount (some "count") (Value.num 0) (Value.num 5)
          wPending).2.el.updateRequest = wPending.el.updateRequest ∧
      (requestUpdate clsCount (some "count") (Value.num 0) (Value.num 5)
          wPending).2.el.hasRequestedUpdate = true) ∧
    ((runAll clsCount 4 (applyReqs clsCount
        [{ key := some "count", oldValue := Value.num 0, newValue := Value.num 5 },
          { key := some "count", oldValue := Value.num 5, newValue := Value.num 7 }]
        (mkWorld elCount))).frames = 1 ∧
      (runAll clsCount 4 (applyReqs clsCount
        [{ key := some "count", oldValue := Value.num 0, newValue := Value.num 5 },
          { key := some "count", oldValue := Value.num 5, newValue := Value.num 7 }]
        (mkWorld elCount))).micro = [] ∧
      (runAll clsCount 4 (applyReqs clsCount
        [{ key := some "count", oldValue := Value.num 0, newValue := Value.num 5 },
          { key := some "count", oldValue := Value.num 5, newValue := Value.num 7 }]
        (mkWorld elCount))).raf = []) :=
  ⟨(c2_single_pending_pass clsCount).1 (some "count") (Value.num 0) (Value.num 5) wPending rfl,
    (c2_single_pending_pass clsCount).2.2.2.2
      [{ key := some "count", oldValue := Value.num 0, newValue := Value.num 5 },
        { key := some "count", oldValue := Value.num 5, newValue := Value.num 7 }]
      elCount rfl ⟨rfl, rfl, rfl, rfl, rfl, rfl, rfl⟩⟩

end CE
